import Mathlib

/-!
Shallow embedding of the dictionary-loading module of kl-hyphenate
(`src/load.rs`): the `Load` trait implementations for the `Standard` and
`Extended` dictionary variants, the `Error` taxonomy with its `Display`
rendering and `From` conversions, and a model of the external collaborators
(the `Language` tag enumeration, `io::Read` byte sources, `std::fs::File`
opening and the bincode 1.x deserializer with its configured size limit).
-/

namespace KLHyphenate


/-- Modelled from the spec: the `Language` enumeration lives in the
`kl-hyphenate-commons` crate of this repository, which is not part of the
analyzed unit.  The spec describes it as a closed, enumerated set of language
tags, immutable, compared by equality and rendered as human-readable
identifiers; a representative closed set suffices since the loader only
compares tags and interpolates their rendering into messages. -/
inductive Language
  | afrikaans
  | englishGB
  | englishUS
  | french
deriving DecidableEq

/-- Modelled from the spec: the human-readable identifier of a language tag
(the external `Display` impl of `Language`), injective on the enumeration. -/
def Language.display : Language → String
  | .afrikaans => "Afrikaans"
  | .englishGB => "English (GB)"
  | .englishUS => "English (US)"
  | .french => "French"

/-- Variant index of a language tag, as written by the binary enum encoding
(bincode 1.x encodes an enum tag as a little-endian u32 variant index). -/
def Language.tag : Language → Nat
  | .afrikaans => 0
  | .englishGB => 1
  | .englishUS => 2
  | .french => 3

/-- Partial inverse of `Language.tag`: decoding a variant index read from the
wire; an index outside the enumeration is a deserialization failure. -/
def Language.ofTag : Nat → Option Language
  | 0 => some .afrikaans
  | 1 => some .englishGB
  | 2 => some .englishUS
  | 3 => some .french
  | _ => none

/-- Model of `std::io::Error`: all the loader does with one is store it and
render it, so its observable content is its message. -/
structure IOError where
  msg : String
deriving DecidableEq

/-- Rendering of an `io::Error` (its `Display` impl shows its message). -/
def IOError.display (e : IOError) : String := e.msg

/-- Model of an `io::Read` byte source: the bytes it will yield in order and
its terminal behavior once they are exhausted — `none` is a clean end of
stream, `some e` is a reader whose next read call fails with I/O error `e`. -/
structure Reader where
  bytes : List Nat
  failure : Option IOError
deriving DecidableEq

/-- Model of `bincode::Error` (bincode 1.x `Box<ErrorKind>`), restricted to
the kinds the stream loader can meet: `io` wraps any error raised by the
underlying reader while bincode pulls bytes (including the unexpected-EOF
error a truncated stream produces), `sizeLimit` is raised when the configured
byte limit would be exceeded, and `custom` covers the remaining
encoding-level kinds (invalid tag, invalid data), whose payload here is
their rendered message. -/
inductive BinError
  | io (e : IOError)
  | sizeLimit
  | custom (msg : String)
deriving DecidableEq

/-- Rendering of a bincode error: the `Io` kind prefixes the inner error,
`SizeLimit` has a fixed message, and a custom kind shows its own message. -/
def BinError.display : BinError → String
  | .io e => "io error: " ++ e.display
  | .sizeLimit => "the size limit has been reached"
  | .custom s => s

/-- The `io::Error` bincode wraps when the stream ends before the encoding is
complete (truncation surfaces inside bincode as an `Io` kind, not outside). -/
def eofError : IOError := ⟨"unexpected end of file"⟩

/-- Little-endian encoding of `v` on `w` bytes. -/
def leBytes : Nat → Nat → List Nat
  | 0, _ => []
  | w + 1, v => (v % 256) :: leBytes w (v / 256)

/-- Little-endian decoding of a byte list. -/
def fromLE : List Nat → Nat
  | [] => 0
  | b :: bs => b + 256 * fromLE bs

/-- One bounded read of `n` bytes inside the bincode deserializer: the
configured limit is charged before the bytes are pulled (the deserializer
must refuse an oversized request before materializing it); a request the
stream cannot satisfy surfaces the reader's own I/O error, or the
unexpected-EOF error when the stream merely ended. -/
def readCounted (r : Reader) (budget n : Nat) :
    Except BinError (List Nat × Reader × Nat) :=
  if budget < n then .error .sizeLimit
  else if n ≤ r.bytes.length then
    .ok (r.bytes.take n, ⟨r.bytes.drop n, r.failure⟩, budget - n)
  else match r.failure with
    | some e => .error (.io e)
    | none => .error (.io eofError)

/-- Modelled from the spec: the wire format of a dictionary is owned by the
serialization library and the dictionary types of `kl-hyphenate-commons`,
neither in the analyzed unit; the spec calls it a length-aware binary
encoding whose first inspected field is the language tag.  Model: a
little-endian u32 language variant index, then the remaining dictionary
content as a length-prefixed opaque blob (u64 length, then that many bytes),
every byte counted against the configured limit, with the declared blob
length charged before its bytes are read. -/
def deserializeRaw (limit : Nat) (r : Reader) :
    Except BinError (Language × List Nat) :=
  match readCounted r limit 4 with
  | .error e => .error e
  | .ok (tagBytes, r1, b1) =>
    match Language.ofTag (fromLE tagBytes) with
    | none => .error (.custom "invalid tag encoding")
    | some lang =>
      match readCounted r1 b1 8 with
      | .error e => .error e
      | .ok (lenBytes, r2, b2) =>
        match readCounted r2 b2 (fromLE lenBytes) with
        | .error e => .error e
        | .ok (payload, _, _) => .ok (lang, payload)

/-- The encoding inverted by `deserializeRaw`: language tag, declared payload
length, payload bytes. -/
def encodeDict (lang : Language) (payload : List Nat) : List Nat :=
  leBytes 4 lang.tag ++ leBytes 8 payload.length ++ payload

/-- The byte ceiling the loader configures: `bin::config().limit(5_000_000)`
in `from_reader` and `any_from_reader`. -/
def binLimit : Nat := 5000000

/-- Modelled from the spec: `kl_hyphenate_commons::dictionary::Standard` is
an opaque deserialization target outside the analyzed unit; the only field
the loader inspects is its embedded `language` tag, so the rest of the
dictionary is kept as the opaque decoded blob. -/
structure Standard where
  language : Language
  payload : List Nat
deriving DecidableEq

/-- Modelled from the spec: `kl_hyphenate_commons::dictionary::Extended`,
the second dictionary variant, likewise opaque except for its `language`
tag. -/
structure Extended where
  language : Language
  payload : List Nat
deriving DecidableEq

/-- Failure modes of dictionary loading (`enum Error` in `load.rs`):
`Deserialization` wraps a `bincode::Error`, `IOFailure` models the source's
`Error::IO` wrapping an `io::Error`, `LanguageMismatch` carries the expected
and found tags, `Resource` is the source's `Error::Resource`. -/
inductive Error
  | Deserialization (e : BinError)
  | IOFailure (e : IOError)
  | LanguageMismatch (expected found : Language)
  | Resource
deriving DecidableEq

/-- The `From<bincode::Error> for Error` conversion: every bincode failure
becomes `Error::Deserialization`. -/
def Error.fromBin (e : BinError) : Error := .Deserialization e

/-- The `From<io::Error> for Error` conversion: every raw I/O failure
becomes `Error::IO`. -/
def Error.fromIOErr (e : IOError) : Error := .IOFailure e

/-- The `Display` impl of `Error`: `Deserialization` and `IO` delegate to
the wrapped error's rendering, `LanguageMismatch` interpolates both
human-readable language identifiers into a fixed template, `Resource` has a
fixed message. -/
def Error.displayed : Error → String
  | .Deserialization e => e.display
  | .IOFailure e => e.display
  | .LanguageMismatch expected found =>
      "Language mismatch: attempted to load a dictionary for `"
        ++ expected.display
        ++ "`, but found\na dictionary for `"
        ++ found.display
        ++ "` instead."
  | .Resource => "the embedded dictionary could not be retrieved"

/-- `bin::config().limit(5_000_000).deserialize_from(reader)` at type
`Standard`: the expression both loader methods apply to the reader. -/
def Standard.deserialize_from (r : Reader) : Except BinError Standard :=
  match deserializeRaw binLimit r with
  | .error e => .error e
  | .ok (lang, payload) => .ok ⟨lang, payload⟩

/-- The same deserialization expression at type `Extended`. -/
def Extended.deserialize_from (r : Reader) : Except BinError Extended :=
  match deserializeRaw binLimit r with
  | .error e => .error e
  | .ok (lang, payload) => .ok ⟨lang, payload⟩

/-- `<Standard as Load>::from_reader` from the `impl_load!` macro: run the
size-limited deserialization (a bincode failure converts through
`From<bincode::Error>` into `Error::Deserialization` via `?`), then compare
the embedded tag with the requested one; mismatch discards the dictionary
and returns `LanguageMismatch { expected, found }`. -/
def Standard.from_reader (lang : Language) (r : Reader) :
    Except Error Standard :=
  match Standard.deserialize_from r with
  | .error e => .error (Error.fromBin e)
  | .ok dict =>
    let found := dict.language
    let expected := lang
    if found ≠ expected then .error (.LanguageMismatch expected found)
    else .ok dict

/-- `<Standard as Load>::any_from_reader`: the same deserialization with no
language check at all. -/
def Standard.any_from_reader (r : Reader) : Except Error Standard :=
  match Standard.deserialize_from r with
  | .error e => .error (Error.fromBin e)
  | .ok dict => .ok dict

/-- `<Extended as Load>::from_reader`, the second expansion of `impl_load!`. -/
def Extended.from_reader (lang : Language) (r : Reader) :
    Except Error Extended :=
  match Extended.deserialize_from r with
  | .error e => .error (Error.fromBin e)
  | .ok dict =>
    let found := dict.language
    let expected := lang
    if found ≠ expected then .error (.LanguageMismatch expected found)
    else .ok dict

/-- `<Extended as Load>::any_from_reader`. -/
def Extended.any_from_reader (r : Reader) : Except Error Extended :=
  match Extended.deserialize_from r with
  | .error e => .error (Error.fromBin e)
  | .ok dict => .ok dict

/-- Model of the filesystem seen by `File::open`: which paths open, and the
byte stream each open file yields. -/
def FileSystem := List (String × Reader)

/-- Model of `std::fs::File::open`: a present path yields its stream, an
absent one fails with the raw I/O error the OS reports. -/
def fileOpen (fs : FileSystem) (path : String) : Except IOError Reader :=
  match fs.find? (fun p => p.1 == path) with
  | some p => .ok p.2
  | none => .error ⟨"No such file or directory"⟩

/-- Model of `io::BufReader::new`: buffering does not change the byte
sequence a reader yields, so it is invisible at this abstraction. -/
def bufReaderNew (r : Reader) : Reader := r

/-- The `Load::from_path` default method for `Standard`: open the file (an
open failure converts through `From<io::Error>` into `Error::IO` via `?`),
then delegate to `from_reader` over a buffered reader of the file. -/
def Standard.from_path (lang : Language) (fs : FileSystem) (path : String) :
    Except Error Standard :=
  match fileOpen fs path with
  | .error e => .error (Error.fromIOErr e)
  | .ok file => Standard.from_reader lang (bufReaderNew file)

/-- The `Load::from_path` default method for `Extended`. -/
def Extended.from_path (lang : Language) (fs : FileSystem) (path : String) :
    Except Error Extended :=
  match fileOpen fs path with
  | .error e => .error (Error.fromIOErr e)
  | .ok file => Extended.from_reader lang (bufReaderNew file)

/-- Spec-side reformulation of verified loading for the refinement claim:
load without verification, then check the embedded tag against the request
(`Standard` variant). -/
def Standard.from_reader_spec (lang : Language) (r : Reader) :
    Except Error Standard :=
  match Standard.any_from_reader r with
  | .ok d =>
      if d.language = lang then .ok d
      else .error (.LanguageMismatch lang d.language)
  | .error e => .error e

/-- Spec-side reformulation of verified loading, `Extended` variant. -/
def Extended.from_reader_spec (lang : Language) (r : Reader) :
    Except Error Extended :=
  match Extended.any_from_reader r with
  | .ok d =>
      if d.language = lang then .ok d
      else .error (.LanguageMismatch lang d.language)
  | .error e => .error e

/-- Equality on loader results is decidable, so concrete runs of the loader
can be checked by evaluation. -/
instance instDecidableEqExcept {ε α : Type} [DecidableEq ε] [DecidableEq α] :
    DecidableEq (Except ε α) := fun x y =>
  match x, y with
  | .ok a, .ok b =>
      if h : a = b then .isTrue (by rw [h])
      else .isFalse (fun hc => h (Except.ok.inj hc))
  | .ok _, .error _ => .isFalse (fun hc => Except.noConfusion hc)
  | .error _, .ok _ => .isFalse (fun hc => Except.noConfusion hc)
  | .error a, .error b =>
      if h : a = b then .isTrue (by rw [h])
      else .isFalse (fun hc => h (Except.error.inj hc))

/-! Theorems. -/

/-- A `w`-byte little-endian encoding occupies exactly `w` bytes. -/
theorem leBytes_length (w : Nat) : ∀ v : Nat, (leBytes w v).length = w := by
  induction w with
  | zero => intro v; rfl
  | succ w ih => intro v; simp [leBytes, ih]

/-- Little-endian decoding inverts little-endian encoding below `256 ^ w`. -/
theorem fromLE_leBytes (w : Nat) :
    ∀ v : Nat, v < 256 ^ w → fromLE (leBytes w v) = v := by
  induction w with
  | zero =>
    intro v hv
    simp only [pow_zero, Nat.lt_one_iff] at hv
    simp [hv, leBytes, fromLE]
  | succ w ih =>
    intro v hv
    have hdiv : v / 256 < 256 ^ w := by
      apply Nat.div_lt_of_lt_mul
      rw [pow_succ] at hv
      omega
    simp only [leBytes, fromLE]
    rw [ih _ hdiv]
    omega

/-- Decoding a language's variant index recovers the language. -/
theorem ofTag_tag (lang : Language) : Language.ofTag lang.tag = some lang := by
  cases lang <;> rfl

/-- A language's variant index fits in the u32 the wire format uses. -/
theorem tag_lt (lang : Language) : lang.tag < 256 ^ 4 := by
  cases lang <;> decide

/-- A stream that declares a payload longer than the remaining byte budget is
rejected with the size-limit kind before the payload is read. -/
theorem deserializeRaw_oversized (lang : Language) (n : Nat) (rest : List Nat)
    (f : Option IOError) (h1 : 5000000 < n) (h2 : n < 256 ^ 8) :
    deserializeRaw binLimit ⟨leBytes 4 lang.tag ++ (leBytes 8 n ++ rest), f⟩
        = Except.error BinError.sizeLimit := by
  have e1 : readCounted ⟨leBytes 4 lang.tag ++ (leBytes 8 n ++ rest), f⟩
      5000000 4
      = Except.ok (leBytes 4 lang.tag, ⟨leBytes 8 n ++ rest, f⟩, 4999996) := by
    simp only [readCounted]
    rw [if_neg (by omega),
      if_pos (by simp [leBytes_length]),
      List.take_left' (leBytes_length 4 _),
      List.drop_left' (leBytes_length 4 _)]
  have e2 : readCounted ⟨leBytes 8 n ++ rest, f⟩ 4999996 8
      = Except.ok (leBytes 8 n, ⟨rest, f⟩, 4999988) := by
    simp only [readCounted]
    rw [if_neg (by omega),
      if_pos (by simp [leBytes_length]),
      List.take_left' (leBytes_length 8 _),
      List.drop_left' (leBytes_length 8 _)]
  have e3 : readCounted ⟨rest, f⟩ 4999988 n = Except.error BinError.sizeLimit := by
    simp only [readCounted]
    rw [if_pos (by omega)]
  simp only [deserializeRaw, binLimit, e1, fromLE_leBytes 4 _ (tag_lt lang),
    ofTag_tag, e2, fromLE_leBytes 8 _ h2, e3]

/-- C4: for both variants and both loading operations, a stream whose
encoding declares a payload larger than 5,000,000 bytes fails with the
Deserialization kind (wrapping bincode's size-limit kind), whatever bytes
follow the declaration. -/
theorem oversized_payload_fails (reqLang lang : Language) (n : Nat)
    (rest : List Nat) (f : Option IOError) (h1 : 5000000 < n)
    (h2 : n < 256 ^ 8) :
    Standard.from_reader reqLang
        ⟨leBytes 4 lang.tag ++ (leBytes 8 n ++ rest), f⟩
        = Except.error (Error.Deserialization BinError.sizeLimit) ∧
    Standard.any_from_reader ⟨leBytes 4 lang.tag ++ (leBytes 8 n ++ rest), f⟩
        = Except.error (Error.Deserialization BinError.sizeLimit) ∧
    Extended.from_reader reqLang
        ⟨leBytes 4 lang.tag ++ (leBytes 8 n ++ rest), f⟩
        = Except.error (Error.Deserialization BinError.sizeLimit) ∧
    Extended.any_from_reader ⟨leBytes 4 lang.tag ++ (leBytes 8 n ++ rest), f⟩
        = Except.error (Error.Deserialization BinError.sizeLimit) := by
  have hd := deserializeRaw_oversized lang n rest f h1 h2
  refine ⟨?_, ?_, ?_, ?_⟩ <;>
    simp [Standard.from_reader, Standard.any_from_reader,
      Extended.from_reader, Extended.any_from_reader,
      Standard.deserialize_from, Extended.deserialize_from, hd, Error.fromBin]

/-- Witness for C4: a stream declaring a 5,000,001-byte payload is rejected
with the Deserialization kind even though nothing else is wrong with it. -/
theorem oversized_payload_fails_witness :
    5000000 < 5000001 ∧
    Standard.any_from_reader
        ⟨leBytes 4 Language.afrikaans.tag ++ (leBytes 8 5000001 ++ []), none⟩
        = Except.error (Error.Deserialization BinError.sizeLimit) :=
  ⟨by omega,
    (oversized_payload_fails Language.afrikaans Language.afrikaans 5000001 []
      none (by omega) (by norm_num)).2.1⟩

/-- A well-formed encoding cut off before its end makes the deserializer run
out of bytes at some stage, and the clean end of stream surfaces as the
bincode `Io` kind wrapping the unexpected-EOF error. -/
theorem deserializeRaw_truncated (lang : Language) (p : List Nat) (k : Nat)
    (hp : p.length ≤ 4999988) (hk : k < 12 + p.length) :
    deserializeRaw binLimit ⟨(encodeDict lang p).take k, none⟩
        = Except.error (BinError.io eofError) := by
  have hB : encodeDict lang p
      = leBytes 4 lang.tag ++ (leBytes 8 p.length ++ p) := by
    simp [encodeDict, List.append_assoc]
  have hBlen : (encodeDict lang p).length = 12 + p.length := by
    simp [hB, List.length_append, leBytes_length]
    omega
  by_cases h4 : k < 4
  · have e1 : readCounted ⟨(encodeDict lang p).take k, none⟩ 5000000 4
        = Except.error (BinError.io eofError) := by
      simp only [readCounted]
      rw [if_neg (by omega),
        if_neg (by simp only [List.length_take, hBlen]; omega)]
    simp only [deserializeRaw, binLimit, e1]
  · push_neg at h4
    have htake4 : ((encodeDict lang p).take k).take 4 = leBytes 4 lang.tag := by
      rw [List.take_take, Nat.min_eq_left h4, hB,
        List.take_left' (leBytes_length 4 _)]
    have hdrop4 : ((encodeDict lang p).take k).drop 4
        = (leBytes 8 p.length ++ p).take (k - 4) := by
      rw [List.drop_take, hB, List.drop_left' (leBytes_length 4 _)]
    have e1 : readCounted ⟨(encodeDict lang p).take k, none⟩ 5000000 4
        = Except.ok (leBytes 4 lang.tag,
            ⟨(leBytes 8 p.length ++ p).take (k - 4), none⟩, 4999996) := by
      simp only [readCounted]
      rw [if_neg (by omega),
        if_pos (by simp only [List.length_take, hBlen]; omega),
        htake4, hdrop4]
    by_cases h12 : k < 12
    · have e2 : readCounted ⟨(leBytes 8 p.length ++ p).take (k - 4), none⟩
          4999996 8 = Except.error (BinError.io eofError) := by
        simp only [readCounted]
        rw [if_neg (by omega),
          if_neg (by
            simp only [List.length_take, List.length_append, leBytes_length]
            omega)]
      simp only [deserializeRaw, binLimit, e1,
        fromLE_leBytes 4 _ (tag_lt lang), ofTag_tag, e2]
    · push_neg at h12
      have htake8 : (((leBytes 8 p.length ++ p).take (k - 4)).take 8)
          = leBytes 8 p.length := by
        rw [List.take_take, Nat.min_eq_left (by omega),
          List.take_left' (leBytes_length 8 _)]
      have hdrop8 : (((leBytes 8 p.length ++ p).take (k - 4)).drop 8)
          = p.take (k - 12) := by
        have hsub : k - 4 - 8 = k - 12 := by omega
        rw [List.drop_take, List.drop_left' (leBytes_length 8 _), hsub]
      have e2 : readCounted ⟨(leBytes 8 p.length ++ p).take (k - 4), none⟩
          4999996 8
          = Except.ok (leBytes 8 p.length, ⟨p.take (k - 12), none⟩, 4999988) := by
        simp only [readCounted]
        rw [if_neg (by omega),
          if_pos (by
            simp only [List.length_take, List.length_append, leBytes_length]
            omega),
          htake8, hdrop8]
      have hn : fromLE (leBytes 8 p.length) = p.length := by
        apply fromLE_leBytes
        have h8 : (5000000 : Nat) < 256 ^ 8 := by norm_num
        omega
      have e3 : readCounted ⟨p.take (k - 12), none⟩ 4999988 p.length
          = Except.error (BinError.io eofError) := by
        simp only [readCounted]
        rw [if_neg (by omega),
          if_neg (by simp only [List.length_take]; omega)]
      simp only [deserializeRaw, binLimit, e1,
        fromLE_leBytes 4 _ (tag_lt lang), ofTag_tag, e2, hn, e3]

/-- C5: for both variants and both loading operations, a stream holding a
strict prefix of a well-formed encoding — truncated mid-encoding — fails
with the Deserialization kind wrapping the unexpected-EOF cause: never the
IO-failure kind and never a silent success. -/
theorem truncated_stream_fails (reqLang lang : Language) (p : List Nat)
    (k : Nat) (hp : p.length ≤ 4999988) (hk : k < 12 + p.length) :
    Standard.from_reader reqLang ⟨(encodeDict lang p).take k, none⟩
        = Except.error (Error.Deserialization (BinError.io eofError)) ∧
    Standard.any_from_reader ⟨(encodeDict lang p).take k, none⟩
        = Except.error (Error.Deserialization (BinError.io eofError)) ∧
    Extended.from_reader reqLang ⟨(encodeDict lang p).take k, none⟩
        = Except.error (Error.Deserialization (BinError.io eofError)) ∧
    Extended.any_from_reader ⟨(encodeDict lang p).take k, none⟩
        = Except.error (Error.Deserialization (BinError.io eofError)) := by
  have hd := deserializeRaw_truncated lang p k hp hk
  refine ⟨?_, ?_, ?_, ?_⟩ <;>
    simp [Standard.from_reader, Standard.any_from_reader,
      Extended.from_reader, Extended.any_from_reader,
      Standard.deserialize_from, Extended.deserialize_from, hd, Error.fromBin]

/-- Witness for C5: the first five bytes of a well-formed two-byte-payload
encoding fail to load with the Deserialization kind wrapping the
unexpected-EOF cause. -/
theorem truncated_stream_fails_witness :
    ([7, 7] : List Nat).length ≤ 4999988 ∧ 5 < 12 + ([7, 7] : List Nat).length ∧
    Standard.from_reader Language.french
        ⟨(encodeDict Language.englishGB [7, 7]).take 5, none⟩
        = Except.error (Error.Deserialization (BinError.io eofError)) :=
  ⟨by decide, by decide,
    (truncated_stream_fails Language.french Language.englishGB [7, 7] 5
      (by decide) (by decide)).1⟩

/-- C6: `any_from_reader` performs no language comparison — for both
variants, whenever the size-limited deserialization of the stream succeeds
with a dictionary, `any_from_reader` returns exactly that dictionary, its
embedded tag unchanged, with no expected language involved. -/
theorem any_from_reader_no_language_check (r : Reader) (d : Standard)
    (e : Extended) :
    (Standard.deserialize_from r = Except.ok d →
      Standard.any_from_reader r = Except.ok d) ∧
    (Extended.deserialize_from r = Except.ok e →
      Extended.any_from_reader r = Except.ok e) := by
  constructor <;> intro h <;>
    simp [Standard.any_from_reader, Extended.any_from_reader, h]

/-- Witness for C6: a concrete stream encoding a French dictionary
deserializes successfully, and `any_from_reader` returns it as is. -/
theorem any_from_reader_no_language_check_witness :
    Standard.deserialize_from ⟨[3, 0, 0, 0, 1, 0, 0, 0, 0, 0, 0, 0, 9], none⟩
        = Except.ok ⟨Language.french, [9]⟩ ∧
    Standard.any_from_reader ⟨[3, 0, 0, 0, 1, 0, 0, 0, 0, 0, 0, 0, 9], none⟩
        = Except.ok ⟨Language.french, [9]⟩ :=
  ⟨rfl,
    (any_from_reader_no_language_check
      ⟨[3, 0, 0, 0, 1, 0, 0, 0, 0, 0, 0, 0, 9], none⟩
      ⟨Language.french, [9]⟩ ⟨Language.french, [9]⟩).1 rfl⟩

/-- C9: no operation of the `Load` trait — `from_path`, `from_reader` or
`any_from_reader`, for either variant — ever returns `Error::Resource`; that
kind has no firing condition in the loader. -/
theorem load_never_returns_resource (lang : Language) (r : Reader)
    (fs : FileSystem) (path : String) :
    Standard.from_reader lang r ≠ Except.error Error.Resource ∧
    Standard.any_from_reader r ≠ Except.error Error.Resource ∧
    Standard.from_path lang fs path ≠ Except.error Error.Resource ∧
    Extended.from_reader lang r ≠ Except.error Error.Resource ∧
    Extended.any_from_reader r ≠ Except.error Error.Resource ∧
    Extended.from_path lang fs path ≠ Except.error Error.Resource := by
  refine ⟨?_, ?_, ?_, ?_, ?_, ?_⟩ <;>
    · intro hc
      simp only [Standard.from_path, Extended.from_path, Standard.from_reader,
        Extended.from_reader, Standard.any_from_reader,
        Extended.any_from_reader, Error.fromBin, Error.fromIOErr,
        bufReaderNew] at hc
      repeat' split at hc
      all_goals simp_all

/-- C10: for each variant, `from_reader` is extensionally the composition of
`any_from_reader` with an embedded-tag check — success passes through when
the tags agree, disagreement becomes `LanguageMismatch` with the request as
`expected` and the embedded tag as `found`, and deserialization errors pass
through unchanged. -/
theorem from_reader_refines_any_from_reader (lang : Language) (r : Reader) :
    Standard.from_reader lang r = Standard.from_reader_spec lang r ∧
    Extended.from_reader lang r = Extended.from_reader_spec lang r := by
  constructor
  · unfold Standard.from_reader Standard.from_reader_spec
      Standard.any_from_reader
    cases h : Standard.deserialize_from r with
    | error e => simp [Error.fromBin]
    | ok d => by_cases hl : d.language = lang <;> simp [hl]
  · unfold Extended.from_reader Extended.from_reader_spec
      Extended.any_from_reader
    cases h : Extended.deserialize_from r with
    | error e => simp [Error.fromBin]
    | ok d => by_cases hl : d.language = lang <;> simp [hl]

/-- C2: for every supported language and both variants, a stream whose
encoded language tag equals the requested one loads successfully through
`from_reader` — the deserialized dictionary is returned — and, on every
stream whatsoever, any dictionary `from_reader` returns carries an embedded
language tag equal to the caller's request: the verified loader never
returns a dictionary whose language differs from the request. -/
theorem from_reader_matching_language_succeeds (lang : Language) (r : Reader)
    (d : Standard) (e : Extended) :
    (Standard.deserialize_from r = Except.ok d → d.language = lang →
      Standard.from_reader lang r = Except.ok d) ∧
    (Extended.deserialize_from r = Except.ok e → e.language = lang →
      Extended.from_reader lang r = Except.ok e) ∧
    (∀ d' : Standard, Standard.from_reader lang r = Except.ok d' →
      d'.language = lang) ∧
    (∀ e' : Extended, Extended.from_reader lang r = Except.ok e' →
      e'.language = lang) := by
  refine ⟨?_, ?_, ?_, ?_⟩
  · intro h hl
    simp [Standard.from_reader, h, hl]
  · intro h hl
    simp [Extended.from_reader, h, hl]
  · intro d' hc
    simp only [Standard.from_reader] at hc
    repeat' split at hc
    all_goals simp_all
  · intro e' hc
    simp only [Extended.from_reader] at hc
    repeat' split at hc
    all_goals simp_all

/-- Witness for C2: a concrete stream encoding an `EnglishUS` dictionary
loads through `from_reader Language.englishUS` and yields that dictionary. -/
theorem from_reader_matching_language_succeeds_witness :
    Standard.deserialize_from ⟨[2, 0, 0, 0, 2, 0, 0, 0, 0, 0, 0, 0, 7, 8], none⟩
        = Except.ok ⟨Language.englishUS, [7, 8]⟩ ∧
    Standard.from_reader Language.englishUS
        ⟨[2, 0, 0, 0, 2, 0, 0, 0, 0, 0, 0, 0, 7, 8], none⟩
        = Except.ok ⟨Language.englishUS, [7, 8]⟩ ∧
    (⟨Language.englishUS, [7, 8]⟩ : Standard).language = Language.englishUS :=
  ⟨rfl,
    (from_reader_matching_language_succeeds Language.englishUS
      ⟨[2, 0, 0, 0, 2, 0, 0, 0, 0, 0, 0, 0, 7, 8], none⟩
      ⟨Language.englishUS, [7, 8]⟩
      ⟨Language.englishUS, [7, 8]⟩).1 rfl rfl,
    (from_reader_matching_language_succeeds Language.englishUS
      ⟨[2, 0, 0, 0, 2, 0, 0, 0, 0, 0, 0, 0, 7, 8], none⟩
      ⟨Language.englishUS, [7, 8]⟩
      ⟨Language.englishUS, [7, 8]⟩).2.2.1
      ⟨Language.englishUS, [7, 8]⟩ rfl⟩

/-- C3: for distinct languages, loading a stream that deserializes with the
other language's tag fails with `LanguageMismatch` whose `expected` field is
the caller's argument and whose `found` field is the embedded tag; no
dictionary value is returned. -/
theorem from_reader_mismatch_fails (lang1 lang2 : Language) (r : Reader)
    (d : Standard) (e : Extended) :
    (lang1 ≠ lang2 → Standard.deserialize_from r = Except.ok d →
      d.language = lang2 →
      Standard.from_reader lang1 r
        = Except.error (Error.LanguageMismatch lang1 lang2)) ∧
    (lang1 ≠ lang2 → Extended.deserialize_from r = Except.ok e →
      e.language = lang2 →
      Extended.from_reader lang1 r
        = Except.error (Error.LanguageMismatch lang1 lang2)) := by
  constructor <;> intro hne h hl <;>
    simp [Standard.from_reader, Extended.from_reader, h, hl, Ne.symm hne]

/-- Witness for C3: requesting `French` on a stream that deserializes to an
`Afrikaans` dictionary yields `LanguageMismatch` with `expected = French`
and `found = Afrikaans`. -/
theorem from_reader_mismatch_fails_witness :
    Language.french ≠ Language.afrikaans ∧
    Extended.deserialize_from ⟨[0, 0, 0, 0, 1, 0, 0, 0, 0, 0, 0, 0, 5], none⟩
        = Except.ok ⟨Language.afrikaans, [5]⟩ ∧
    Extended.from_reader Language.french
        ⟨[0, 0, 0, 0, 1, 0, 0, 0, 0, 0, 0, 0, 5], none⟩
        = Except.error
            (Error.LanguageMismatch Language.french Language.afrikaans) :=
  ⟨by decide, rfl,
    (from_reader_mismatch_fails Language.french Language.afrikaans
      ⟨[0, 0, 0, 0, 1, 0, 0, 0, 0, 0, 0, 0, 5], none⟩
      ⟨Language.afrikaans, [5]⟩ ⟨Language.afrikaans, [5]⟩).2
      (by decide) rfl rfl⟩

/-- C1, counterexample: a reader whose very first read fails with an I/O
error does not make `from_reader` return the IO-failure kind; the failure
comes back as `Error::Deserialization` wrapping the bincode `Io` kind,
because the `?` in `from_reader` converts the `bincode::Error` through
`From<bincode::Error>`, and `From<io::Error>` is never involved on the
stream path. -/
theorem stream_io_failure_not_io_kind :
    Standard.from_reader Language.englishUS ⟨[], some ⟨"read failed"⟩⟩
        = Except.error (Error.Deserialization (BinError.io ⟨"read failed"⟩)) ∧
    Standard.from_reader Language.englishUS ⟨[], some ⟨"read failed"⟩⟩
        ≠ Except.error (Error.IOFailure ⟨"read failed"⟩) :=
  ⟨rfl, by decide⟩

/-- C1, amended: an I/O failure raised by the reader while bytes are pulled
during `from_reader` or `any_from_reader` surfaces, for both variants, as
`Error::Deserialization` wrapping the bincode `Io` kind that carries the
underlying cause — and no call to `from_reader` or `any_from_reader` ever
returns the `Error::IO` kind, which arises only from opening the file in
`from_path`. -/
theorem stream_io_failure_is_deserialization (lang : Language) (r : Reader)
    (e : IOError)
    (h : deserializeRaw binLimit r = Except.error (BinError.io e)) :
    (Standard.from_reader lang r
        = Except.error (Error.Deserialization (BinError.io e)) ∧
      Standard.any_from_reader r
        = Except.error (Error.Deserialization (BinError.io e)) ∧
      Extended.from_reader lang r
        = Except.error (Error.Deserialization (BinError.io e)) ∧
      Extended.any_from_reader r
        = Except.error (Error.Deserialization (BinError.io e))) ∧
    (∀ (lang' : Language) (r' : Reader) (e' : IOError),
      Standard.from_reader lang' r' ≠ Except.error (Error.IOFailure e') ∧
      Standard.any_from_reader r' ≠ Except.error (Error.IOFailure e') ∧
      Extended.from_reader lang' r' ≠ Except.error (Error.IOFailure e') ∧
      Extended.any_from_reader r' ≠ Except.error (Error.IOFailure e')) := by
  constructor
  · refine ⟨?_, ?_, ?_, ?_⟩ <;>
      simp [Standard.from_reader, Standard.any_from_reader,
        Extended.from_reader, Extended.any_from_reader,
        Standard.deserialize_from, Extended.deserialize_from, h,
        Error.fromBin]
  · intro lang' r' e'
    refine ⟨?_, ?_, ?_, ?_⟩ <;>
      · intro hc
        simp only [Standard.from_reader, Standard.any_from_reader,
          Extended.from_reader, Extended.any_from_reader,
          Error.fromBin] at hc
        repeat' split at hc
        all_goals simp_all

/-- Witness for C1's amended theorem: a reader that fails immediately with
`read failed` makes both loaders of both variants return the
deserialization-wrapped I/O cause. -/
theorem stream_io_failure_is_deserialization_witness :
    deserializeRaw binLimit ⟨[], some ⟨"boom"⟩⟩
        = Except.error (BinError.io ⟨"boom"⟩) ∧
    Extended.any_from_reader ⟨[], some ⟨"boom"⟩⟩
        = Except.error (Error.Deserialization (BinError.io ⟨"boom"⟩)) :=
  ⟨rfl,
    ((stream_io_failure_is_deserialization Language.french
      ⟨[], some ⟨"boom"⟩⟩ ⟨"boom"⟩ rfl).1).2.2.2⟩

/-- C7: for every language and both variants, `from_path` on a path that
cannot be opened fails with the IO-failure kind carrying the open error;
when the path opens, `from_path` is exactly `from_reader` over a buffered
reader of the opened file. -/
theorem from_path_open_failure_is_io (lang : Language) (fs : FileSystem)
    (path : String) :
    (∀ e : IOError, fileOpen fs path = Except.error e →
      Standard.from_path lang fs path = Except.error (Error.IOFailure e) ∧
      Extended.from_path lang fs path = Except.error (Error.IOFailure e)) ∧
    (∀ r : Reader, fileOpen fs path = Except.ok r →
      Standard.from_path lang fs path
          = Standard.from_reader lang (bufReaderNew r) ∧
      Extended.from_path lang fs path
          = Extended.from_reader lang (bufReaderNew r)) := by
  constructor <;> intro x h <;>
    simp [Standard.from_path, Extended.from_path, h, Error.fromIOErr]

/-- Witness for C7: on an empty filesystem every path fails to open with the
no-such-file error, and `from_path` surfaces it as the IO-failure kind. -/
theorem from_path_open_failure_is_io_witness :
    fileOpen [] "dictionaries/en-us.standard.bincode"
        = Except.error ⟨"No such file or directory"⟩ ∧
    Standard.from_path Language.englishUS [] "dictionaries/en-us.standard.bincode"
        = Except.error (Error.IOFailure ⟨"No such file or directory"⟩) :=
  ⟨rfl,
    ((from_path_open_failure_is_io Language.englishUS []
      "dictionaries/en-us.standard.bincode").1
      ⟨"No such file or directory"⟩ rfl).1⟩

/-- C8, counterexample: the rendering of `Error` is not distinct per kind —
an `Error::IO` whose underlying `io::Error` message reads `io error: boom`
renders exactly like an `Error::Deserialization` wrapping the bincode `Io`
kind around cause `boom`, because both kinds delegate rendering to the
wrapped error; yet the two values are errors of different kinds. -/
theorem error_display_collision :
    Error.displayed (Error.IOFailure ⟨"io error: boom"⟩)
        = Error.displayed (Error.Deserialization (BinError.io ⟨"boom"⟩)) ∧
    Error.IOFailure ⟨"io error: boom"⟩
        ≠ Error.Deserialization (BinError.io ⟨"boom"⟩) :=
  ⟨rfl, by decide⟩

/-- C8, amended: `LanguageMismatch` renders the fixed mismatch template with
both the expected and the found human-readable language identifiers
interpolated, `Resource` renders its own fixed message — distinct from every
mismatch rendering — while `Deserialization` and `IO` delegate rendering to
the wrapped cause, so their renderings are not distinct across kinds. -/
theorem error_display_shape (expected found : Language) (b : BinError)
    (e : IOError) :
    Error.displayed (Error.LanguageMismatch expected found)
        = "Language mismatch: attempted to load a dictionary for `"
            ++ expected.display ++ "`, but found\na dictionary for `"
            ++ found.display ++ "` instead." ∧
    Error.displayed Error.Resource
        = "the embedded dictionary could not be retrieved" ∧
    Error.displayed (Error.Deserialization b) = b.display ∧
    Error.displayed (Error.IOFailure e) = e.display ∧
    Error.displayed (Error.LanguageMismatch expected found)
        ≠ Error.displayed Error.Resource := by
  refine ⟨rfl, rfl, rfl, rfl, ?_⟩
  cases expected <;> cases found <;> decide

end KLHyphenate
